import Mathlib

/-!
Verification of the relay-inspect repository: a shallow embedding of the
annotation HTTP service, the CDP client target selection, the generic
circular buffer, and the network event pipeline, together with proofs of
the specified properties.

String prefix tests of the source (String.prototype.startsWith) are
embedded on the character-list level, and platform URL parsing
(the WHATWG new URL constructor) is kept as an explicit parameter of the
functions that call it, so every theorem quantifies over the parser.
-/

set_option maxRecDepth 2048

namespace RelayInspect

/-! ## Embedding of src/cdp-client.ts helpers -/

/-- Result of platform URL parsing: the fields the source reads.
JS: parsed.protocol includes the trailing colon; parsed.hostname keeps
the brackets of an IPv6 literal. -/
structure UrlParts where
  protocol : String
  hostname : String
deriving DecidableEq, Repr

/-- Models JS String.prototype.startsWith on the character level. -/
def strStartsWith (s pre : String) : Bool :=
  pre.data.isPrefixOf s.data

/-- Embeds INTERNAL_TARGET_PREFIXES from src/cdp-client.ts. -/
def internalTargetPrefixList : List String :=
  ["devtools://", "chrome://", "chrome-extension://", "about:"]

/-- Embeds isInternalTargetUrl from src/cdp-client.ts. -/
def isInternalTargetUrl (url : String) : Bool :=
  internalTargetPrefixList.any (fun pre => strStartsWith url pre)

/-- Embeds isHttpUrl from src/cdp-client.ts. -/
def isHttpUrl (url : String) : Bool :=
  strStartsWith url "http://" || strStartsWith url "https://"

/-- Embeds isLocalhostHttpUrl from src/cdp-client.ts; the platform URL
parser is the parameter parse (returning none when new URL throws). -/
def isLocalhostHttpUrl (parse : String → Option UrlParts) (url : String) : Bool :=
  match parse url with
  | none => false
  | some parsed =>
    if parsed.protocol ≠ "http:" ∧ parsed.protocol ≠ "https:" then false
    else decide (parsed.hostname = "localhost" ∨ parsed.hostname = "127.0.0.1" ∨
                 parsed.hostname = "[::1]")

/-- Embeds the PageTarget record of src/cdp-client.ts. -/
structure PageTarget where
  id : String
  title : String
  type : String
  url : String
deriving DecidableEq, Repr

/-- Embeds chooseDefaultTarget from src/cdp-client.ts. -/
def chooseDefaultTarget (parse : String → Option UrlParts)
    (pageTargets : List PageTarget) : Option PageTarget :=
  match pageTargets with
  | [] => none
  | first :: _ =>
    let nonInternalPages := pageTargets.filter (fun t => !isInternalTargetUrl t.url)
    let httpPages := nonInternalPages.filter (fun t => isHttpUrl t.url)
    let localhostPages := httpPages.filter (fun t => isLocalhostHttpUrl parse t.url)
    (((localhostPages.head?).orElse (fun _ => httpPages.head?)).orElse
      (fun _ => nonInternalPages.head?)).orElse (fun _ => some first)

/-! ## Embedding of the CircularBuffer class of src/cdp-client.ts -/

structure CircularBuffer (α : Type) where
  buffer : List α
  maxSize : Nat
deriving Repr

/-- A freshly constructed buffer: empty list, given capacity. -/
def CircularBuffer.empty (α : Type) (maxSize : Nat) : CircularBuffer α :=
  { buffer := [], maxSize := maxSize }

/-- Embeds CircularBuffer.push: append, then shift off the oldest element
when the length exceeds the capacity. -/
def CircularBuffer.push (b : CircularBuffer α) (item : α) : CircularBuffer α :=
  if b.maxSize < (b.buffer ++ [item]).length then
    { b with buffer := (b.buffer ++ [item]).drop 1 }
  else
    { b with buffer := b.buffer ++ [item] }

/-- Embeds CircularBuffer.drain: return all items, clear the buffer. -/
def CircularBuffer.drain (b : CircularBuffer α) : List α × CircularBuffer α :=
  (b.buffer, { b with buffer := [] })

/-- Embeds CircularBuffer.drainWhere: walk the buffer in order, appending
each item to the matched list or the remaining list; keep the remaining. -/
def CircularBuffer.drainWhere (b : CircularBuffer α) (predicate : α → Bool) :
    List α × CircularBuffer α :=
  let pair := b.buffer.foldl
    (fun (acc : List α × List α) item =>
      if predicate item then (acc.1 ++ [item], acc.2) else (acc.1, acc.2 ++ [item]))
    ([], [])
  (pair.1, { b with buffer := pair.2 })

/-- Embeds CircularBuffer.peek: a copy of the contents. -/
def CircularBuffer.peek (b : CircularBuffer α) : List α :=
  b.buffer

/-- Embeds the length getter of CircularBuffer. -/
def CircularBuffer.length (b : CircularBuffer α) : Nat :=
  b.buffer.length

/-- A sequence of pushes, in order. -/
def CircularBuffer.pushMany (b : CircularBuffer α) (items : List α) : CircularBuffer α :=
  items.foldl CircularBuffer.push b

/-! ## Embedding of the annotation service of src/unnamed/part_000

The HTTP bodies the handler receives are the output of JSON.parse, cast to
untyped records; they are modelled by the JVal type below. Platform string
and number coercions are modelled by jsString and jsNumber; a JSON number
is modelled as an integer (the claims exercise only integral numbers), and
NaN is modelled as none. -/

/-- A parsed JSON value (output of JSON.parse). -/
inductive JVal where
  | null
  | bool (b : Bool)
  | num (n : Int)
  | str (s : String)
  | arr (items : List JVal)
  | obj (fields : List (String × JVal))

/-- JS property access v.key on a parsed JSON value: a field of an
object, undefined (none) on missing fields and on non-objects. -/
def jget (v : JVal) (key : String) : Option JVal :=
  match v with
  | .obj fields => (fields.find? (fun f => f.1 == key)).map (fun f => f.2)
  | _ => none

/-- JS truthiness of a parsed JSON value. -/
def truthy : JVal → Bool
  | .null => false
  | .bool b => b
  | .num n => n != 0
  | .str s => s != ""
  | .arr _ => true
  | .obj _ => true

/-- Models the JS String() coercion on parsed JSON values. The recursive
comma join of arrays is not modelled (no claim coerces an array). -/
def jsString : JVal → String
  | .null => "null"
  | .bool b => cond b "true" "false"
  | .num n => toString n
  | .str s => s
  | .arr _ => ""
  | .obj _ => "[object Object]"

/-- Models the JS Number() coercion on parsed JSON values; none is NaN.
Coercion of strings and arrays through their string form is not modelled
and is mapped to NaN (no claim exercises it). -/
def jsNumber : JVal → Option Int
  | .null => some 0
  | .bool b => some (cond b 1 0)
  | .num n => some n
  | .str _ => none
  | .arr _ => none
  | .obj _ => none

/-- String(x ?? ""): the nullish coalescing of an optional field with ""
followed by the String() coercion. -/
def jsStringOrEmpty : Option JVal → String
  | none => ""
  | some .null => ""
  | some v => jsString v

/-- Number(x) > 0 in JS: false when x is NaN. -/
def optGt0 : Option Int → Bool
  | some n => decide (0 < n)
  | none => false

/-! ### Insertion-ordered map, modelling the JS Map over annotation ids -/

/-- Map.prototype.set: replace in place when the key exists, append
otherwise (JS Map preserves insertion order). -/
def mapSet (m : List (String × α)) (k : String) (v : α) : List (String × α) :=
  if m.any (fun p => p.1 == k) then
    m.map (fun p => if p.1 == k then (k, v) else p)
  else
    m ++ [(k, v)]

/-- Map.prototype.get. -/
def mapGet (m : List (String × α)) (k : String) : Option α :=
  (m.find? (fun p => p.1 == k)).map (fun p => p.2)

/-- Map.prototype.delete, as the resulting map. -/
def mapDelete (m : List (String × α)) (k : String) : List (String × α) :=
  m.filter (fun p => p.1 != k)

/-! ### The annotation data model (the Annotation record of the source) -/

structure ReactSource where
  component : String
  source : Option String
deriving DecidableEq, Repr

/-- A rectangle whose coordinates come from Number() coercions and may be
NaN (none). -/
structure JsRect where
  x : Option Int
  y : Option Int
  width : Option Int
  height : Option Int
deriving DecidableEq, Repr

/-- A point whose coordinates come from Number() coercions. -/
structure JsPoint where
  x : Option Int
  y : Option Int
deriving DecidableEq, Repr

/-- The AnnotationElement record of the source. -/
structure AnnotElement where
  selector : String
  selectorConfidence : String
  reactSource : Option ReactSource
  elementRect : JsRect
deriving DecidableEq, Repr

/-- The Annotation record of the source (named Annot here). The two string
unions of the source are kept as strings: selectorConfidence is "stable"
or "fragile", status is "open" or "resolved". -/
structure Annot where
  id : String
  url : String
  selector : String
  selectorConfidence : String
  text : String
  status : String
  viewportWidth : Int
  viewportHeight : Int
  reactSource : Option ReactSource
  screenshot : Option String
  elements : Option (List AnnotElement)
  anchorPoint : Option JsPoint
  createdAt : String
  updatedAt : String
deriving DecidableEq, Repr

def MAX_ANNOTATIONS : Nat := 50
def MAX_TEXT_LENGTH : Nat := 10 * 1024
def MAX_VIEWPORT_DIM : Int := 100000

/-- The mutable state of the AnnotationServer class: the annotation map
and the send-rendezvous fields. waiterActive models sendResolver (and
sendCanceller) being non-null. -/
structure ServerState where
  annotations : List (String × Annot)
  sendLatched : Bool
  sentTriggered : Bool
  waiterActive : Bool
deriving Repr

/-- The initial state of a fresh AnnotationServer. -/
def ServerState.initial : ServerState :=
  { annotations := [], sendLatched := false, sentTriggered := false, waiterActive := false }

/-- The JSON response bodies the handler produces, by shape. -/
inductive RespBody where
  | empty
  | health (count : Nat) (port : Option Nat)
  | sendOk
  | created (id : String)
  | annots (items : List Annot)
  | annot (a : Annot)
  | deleted
  | err (msg : String)
deriving Repr

structure Resp where
  status : Nat
  body : RespBody
deriving Repr

/-- Per-request external inputs: the wall clock (new Date().toISOString()),
the generated UUID, whether a screenshot callback is registered, and the
outcome of awaiting it (none covers both a null result and a thrown
error, which the source logs and swallows). -/
structure ReqCtx where
  now : String
  newId : String
  hasScreenshotCb : Bool
  screenshotResult : Option String

/-! ### The request handlers of the AnnotationServer -/

/-- Embeds isAllowedOrigin of the annotation server; parse is the
platform URL parser (none when the URL constructor throws). JS treats
both a missing origin header and the empty string as falsy. -/
def isAllowedOrigin (parse : String → Option UrlParts) (origin : Option String) :
    Option String :=
  match origin with
  | none => none
  | some s =>
    if s = "" then none
    else
      match parse s with
      | none => none
      | some parsed =>
        if (parsed.protocol = "http:" ∨ parsed.protocol = "https:") ∧
            (parsed.hostname = "localhost" ∨ parsed.hostname = "127.0.0.1" ∨
             parsed.hostname = "[::1]") then
          some s
        else
          none

/-- Embeds consumeSentState. -/
def consumeSentState (st : ServerState) : Bool × ServerState :=
  if st.sentTriggered then (true, { st with sentTriggered := false })
  else (false, st)

/-- Embeds waitForSend. The first component is some b when the call
resolves immediately with triggered = b (the latched path); it is none
when a waiter is installed instead: any previous waiter is cancelled
(resolving, outside the stored state, with triggered = false) and the
new waiter is resolved later by the send endpoint, by its timer, or by a
subsequent cancellation. The timeout only arms the timer and is not read
on the latched path, exactly as in the source. -/
def waitForSend (st : ServerState) (timeoutMs : Nat) : Option Bool × ServerState :=
  if st.sendLatched then (some true, { st with sendLatched := false })
  else
    let _ := timeoutMs
    (none, { st with waiterActive := true })

/-- Embeds the POST /annotations/send route: resolve an active waiter
(with triggered = true) or set the latch, then mark the sent-seen flag.
The onSendNotify callback is an external effect. -/
def handleSend (st : ServerState) : ServerState × Resp :=
  let st1 :=
    if st.waiterActive then { st with waiterActive := false }
    else { st with sendLatched := true }
  ({ st1 with sentTriggered := true }, ⟨200, .sendOk⟩)

/-- The selectorConfidence mapping: the literal "stable" stays, anything
else becomes "fragile". -/
def confidenceOf (v : Option JVal) : String :=
  match v with
  | some (.str s) => if s = "stable" then "stable" else "fragile"
  | _ => "fragile"

/-- reactSource extraction: component must be truthy; source is kept only
when truthy. -/
def reactSourceOf (v : Option JVal) : Option ReactSource :=
  match v with
  | some rs =>
    match jget rs "component" with
    | some c =>
      if truthy c then
        some { component := jsString c,
               source := match jget rs "source" with
                 | some sv => if truthy sv then some (jsString sv) else none
                 | none => none }
      else none
    | none => none
  | none => none

/-- Number(rect?.f ?? 0) for a field of an optional rect value. -/
def rectNum (rect : Option JVal) (field : String) : Option Int :=
  jsNumber ((match rect with
    | some r => jget r field
    | none => none).getD (.num 0))

/-- The mapping of one entry of body.elements. -/
def elementOf (el : JVal) : AnnotElement :=
  { selector := jsStringOrEmpty (jget el "selector"),
    selectorConfidence := confidenceOf (jget el "selectorConfidence"),
    reactSource := reactSourceOf (jget el "reactSource"),
    elementRect :=
      { x := rectNum (jget el "elementRect") "x",
        y := rectNum (jget el "elementRect") "y",
        width := rectNum (jget el "elementRect") "width",
        height := rectNum (jget el "elementRect") "height" } }

/-- typeof body.url !== "undefined" && typeof body.url !== "string". -/
def urlFieldBad (body : JVal) : Bool :=
  match jget body "url" with
  | none => false
  | some (.str _) => false
  | some _ => true

/-- Number(viewport?.width ?? 0) and Number(viewport?.height ?? 0). -/
def viewportNums (body : JVal) : Option Int × Option Int :=
  (jsNumber ((match jget body "viewport" with
      | some vp => jget vp "width"
      | none => none).getD (.num 0)),
   jsNumber ((match jget body "viewport" with
      | some vp => jget vp "height"
      | none => none).getD (.num 0)))

/-- Embeds the POST /annotations route after the cap check: validation,
screenshot capture, construction, insertion. -/
def handleCreate (st : ServerState) (body : JVal) (ctx : ReqCtx) : ServerState × Resp :=
  if MAX_ANNOTATIONS ≤ st.annotations.length then
    (st, ⟨429, .err "Maximum of 50 annotations reached. Resolve or delete existing annotations first."⟩)
  else
    let text := jsStringOrEmpty (jget body "text")
    if MAX_TEXT_LENGTH < text.length then
      (st, ⟨400, .err "Text exceeds maximum length of 10240 characters"⟩)
    else
      if urlFieldBad body then (st, ⟨400, .err "url must be a string"⟩)
      else
        match viewportNums body with
        | (some vw, some vh) =>
          if vw < 0 ∨ vh < 0 ∨ MAX_VIEWPORT_DIM < vw ∨ MAX_VIEWPORT_DIM < vh then
            (st, ⟨400, .err "Invalid viewport dimensions"⟩)
          else
            let elementRect := jget body "elementRect"
            let takeShot := (match elementRect with
                | some v => truthy v
                | none => false)
              && ctx.hasScreenshotCb
              && optGt0 (rectNum elementRect "width")
              && optGt0 (rectNum elementRect "height")
            let screenshot := if takeShot then ctx.screenshotResult else none
            let base : Annot :=
              { id := ctx.newId,
                url := jsStringOrEmpty (jget body "url"),
                selector := jsStringOrEmpty (jget body "selector"),
                selectorConfidence := confidenceOf (jget body "selectorConfidence"),
                text := text,
                status := "open",
                viewportWidth := vw,
                viewportHeight := vh,
                reactSource := reactSourceOf (jget body "reactSource"),
                screenshot := screenshot,
                elements := none,
                anchorPoint := none,
                createdAt := ctx.now,
                updatedAt := ctx.now }
            let withElems := match jget body "elements" with
              | some (.arr items) => { base with elements := some (items.map elementOf) }
              | _ => base
            let anchor := jget body "anchorPoint"
            let ax := match anchor with | some v => jget v "x" | none => none
            let ay := match anchor with | some v => jget v "y" | none => none
            let anchorOk := (match anchor with | some v => truthy v | none => false)
              && (match ax with | none => false | some .null => false | some _ => true)
              && (match ay with | none => false | some .null => false | some _ => true)
            let anchorPt : JsPoint := ⟨jsNumber (ax.getD .null), jsNumber (ay.getD .null)⟩
            let final := if anchorOk then { withElems with anchorPoint := some anchorPt } else withElems
            ({ st with annotations := mapSet st.annotations ctx.newId final },
             ⟨201, .created ctx.newId⟩)
        | _ => (st, ⟨400, .err "Invalid viewport dimensions"⟩)

/-- Embeds resolveAnnotation of the source (mark resolved, touch
updatedAt, return the entity). -/
def resolveAnn (st : ServerState) (id now : String) : ServerState × Option Annot :=
  match mapGet st.annotations id with
  | none => (st, none)
  | some ann =>
    let updated := { ann with status := "resolved", updatedAt := now }
    ({ st with annotations := mapSet st.annotations id updated }, some updated)

/-- Embeds deleteAnnotation of the source (Map.delete, reporting whether
the key existed). -/
def deleteAnn (st : ServerState) (id : String) : ServerState × Bool :=
  ({ st with annotations := mapDelete st.annotations id },
   (mapGet st.annotations id).isSome)

/-- Embeds the PATCH /annotations/:id route. -/
def handlePatch (st : ServerState) (id : String) (body : JVal) (ctx : ReqCtx) :
    ServerState × Resp :=
  match mapGet st.annotations id with
  | none => (st, ⟨404, .err "Annotation not found"⟩)
  | some ann =>
    match jget body "text" with
    | some (.str s) =>
      if MAX_TEXT_LENGTH < s.length then
        (st, ⟨400, .err "Text exceeds maximum length of 10240 characters"⟩)
      else
        let updated := { ann with text := s, updatedAt := ctx.now }
        ({ st with annotations := mapSet st.annotations id updated }, ⟨200, .annot updated⟩)
    | _ =>
      let updated := { ann with updatedAt := ctx.now }
      ({ st with annotations := mapSet st.annotations id updated }, ⟨200, .annot updated⟩)

/-- Splitting a character list on the slash separator (the segments of
String.prototype.split or of the path regex of the source). -/
def splitOnSlash (cs : List Char) : List (List Char) :=
  match cs with
  | [] => [[]]
  | c :: rest =>
    if c = '/' then [] :: splitOnSlash rest
    else
      match splitOnSlash rest with
      | seg :: segs => (c :: seg) :: segs
      | [] => [[c]]

/-- The :id route matcher, embedding the regex of the source:
a path of the exact shape /annotations/<seg> or /annotations/<seg>/resolve
with <seg> nonempty and slash-free. -/
def matchIdRoute (path : String) : Option (String × Bool) :=
  match splitOnSlash path.data with
  | [lead, route, seg] =>
    if lead.isEmpty && route == "annotations".data && !seg.isEmpty then
      some (String.mk seg, false)
    else none
  | [lead, route, seg, tail] =>
    if lead.isEmpty && route == "annotations".data && !seg.isEmpty
        && tail == "resolve".data then
      some (String.mk seg, true)
    else none
  | _ => none

/-! ## Embedding of the network event pipeline of src/cdp-client.ts

The three Network event handlers attached by attachEventHandlers, acting
on the pending-request map and the bounded network buffer. CDP timestamps
are rationals (seconds); toIso is the platform rendering of a wall-clock
time in milliseconds to an ISO string. -/

/-- The PendingRequest record of src/cdp-client.ts. -/
structure PendingRequest where
  id : String
  url : String
  method : String
  timestamp : String
  startTime : Rat
deriving DecidableEq, Repr

/-- The NetworkEntry record of src/cdp-client.ts. -/
structure NetworkEntry where
  id : String
  url : String
  method : String
  status : Option Int
  timing_ms : Option Rat
  error : Option String
  timestamp : String
deriving DecidableEq, Repr

/-- The parameters the handlers read from the three CDP network events. -/
inductive NetworkEvent where
  | requestWillBeSent (requestId url method : String) (wallTime timestamp : Rat)
  | responseReceived (requestId : String) (status : Int) (timestamp : Rat)
  | loadingFailed (requestId : String) (errorText : String) (timestamp : Rat)
deriving DecidableEq, Repr

/-- JS Math.round. -/
def jsRound (q : Rat) : Int := ⌊q + 1 / 2⌋

/-- Math.round((t - start) * 1000 * 100) / 100 of the source. -/
def timingMs (t start : Rat) : Rat := (jsRound ((t - start) * 1000 * 100) : Rat) / 100

/-- The network-related mutable state of the CDP client. -/
structure NetState where
  pendingRequests : List (String × PendingRequest)
  networkRequests : CircularBuffer NetworkEntry
deriving Repr

/-- One step of the pipeline: the bodies of the three event handlers. -/
def stepNetwork (toIso : Rat → String) (s : NetState) : NetworkEvent → NetState
  | .requestWillBeSent rid url method wallTime ts =>
    let pending : PendingRequest :=
      { id := rid, url := url, method := method,
        timestamp := toIso (wallTime * 1000), startTime := ts }
    { s with pendingRequests := mapSet s.pendingRequests rid pending }
  | .responseReceived rid status ts =>
    match mapGet s.pendingRequests rid with
    | none => s
    | some pending =>
      { pendingRequests := mapDelete s.pendingRequests rid,
        networkRequests := s.networkRequests.push
          { id := pending.id, url := pending.url, method := pending.method,
            status := some status, timing_ms := some (timingMs ts pending.startTime),
            error := none, timestamp := pending.timestamp } }
  | .loadingFailed rid errorText ts =>
    match mapGet s.pendingRequests rid with
    | none => s
    | some pending =>
      { pendingRequests := mapDelete s.pendingRequests rid,
        networkRequests := s.networkRequests.push
          { id := pending.id, url := pending.url, method := pending.method,
            status := none, timing_ms := some (timingMs ts pending.startTime),
            error := some errorText, timestamp := pending.timestamp } }

/-- The pipeline state after a sequence of events, from the initial state
of a client whose network buffer has the given capacity. -/
def runNetwork (toIso : Rat → String) (cap : Nat) (events : List NetworkEvent) : NetState :=
  events.foldl (stepNetwork toIso)
    { pendingRequests := [], networkRequests := CircularBuffer.empty NetworkEntry cap }

/-- The event is a request-will-be-sent carrying the given request id. -/
def NetworkEvent.isRequestFor (e : NetworkEvent) (rid : String) : Prop :=
  match e with
  | .requestWillBeSent r _ _ _ _ => r = rid
  | _ => False

/-- The event is a response-received carrying the given request id. -/
def NetworkEvent.isResponseFor (e : NetworkEvent) (rid : String) : Prop :=
  match e with
  | .responseReceived r _ _ => r = rid
  | _ => False

/-- Embeds handleRequest of the AnnotationServer: the method+path switch,
in source order. The request body is the parsed JSON body for the routes
that read one. -/
def handleRequest (st : ServerState) (method path : String) (body : JVal)
    (ctx : ReqCtx) (port : Option Nat) : ServerState × Resp :=
  if method = "OPTIONS" then (st, ⟨204, .empty⟩)
  else if method = "GET" ∧ path = "/" then
    (st, ⟨200, .health st.annotations.length port⟩)
  else if method = "POST" ∧ path = "/annotations/send" then handleSend st
  else if method = "POST" ∧ path = "/annotations" then handleCreate st body ctx
  else if method = "GET" ∧ path = "/annotations" then
    (st, ⟨200, .annots (st.annotations.map (fun p => p.2))⟩)
  else
    match matchIdRoute path with
    | some (id, isResolve) =>
      if method = "POST" ∧ isResolve then
        match (resolveAnn st id ctx.now).2 with
        | some a => ((resolveAnn st id ctx.now).1, ⟨200, .annot a⟩)
        | none => ((resolveAnn st id ctx.now).1, ⟨404, .err "Annotation not found"⟩)
      else if method = "PATCH" ∧ ¬isResolve then handlePatch st id body ctx
      else if method = "DELETE" ∧ ¬isResolve then
        if (deleteAnn st id).2 then ((deleteAnn st id).1, ⟨200, .deleted⟩)
        else ((deleteAnn st id).1, ⟨404, .err "Annotation not found"⟩)
      else (st, ⟨404, .err "Not found"⟩)
    | none => (st, ⟨404, .err "Not found"⟩)

/-! ### Spec-side predicates and concrete sample inputs used by the
theorems and witnesses -/

/-- A creation body that passes all three validation guards of the
POST /annotations route (mirrors the guards of handleCreate). -/
def validCreateBody (body : JVal) : Bool :=
  decide ((jsStringOrEmpty (jget body "text")).length ≤ MAX_TEXT_LENGTH)
  && !urlFieldBad body
  && (match viewportNums body with
      | (some vw, some vh) =>
        !(decide (vw < 0) || decide (vh < 0)
          || decide (MAX_VIEWPORT_DIM < vw) || decide (MAX_VIEWPORT_DIM < vh))
      | _ => false)

/-- The optional field holds a JSON string (typeof x === "string"). -/
def isStrField : Option JVal → Bool
  | some (.str _) => true
  | _ => false

/-- The substring relation used by the error-message claims. -/
def containsSub (s sub : String) : Prop :=
  ∃ pre post, s = pre ++ sub ++ post

/-- A plain stored annotation used as sample data. -/
def sampleAnnot : Annot :=
  { id := "id-1", url := "", selector := "", selectorConfidence := "fragile",
    text := "ann-0", status := "open", viewportWidth := 800, viewportHeight := 600,
    reactSource := none, screenshot := none, elements := none, anchorPoint := none,
    createdAt := "T0", updatedAt := "T0" }

/-- A server state holding exactly one annotation under the key id-1. -/
def oneAnnotState : ServerState :=
  { annotations := [("id-1", sampleAnnot)], sendLatched := false,
    sentTriggered := false, waiterActive := false }

/-- A server state holding 50 annotations under the keys 0..49. -/
def fullState : ServerState :=
  { annotations := (List.range 50).map (fun i => (toString i, sampleAnnot)),
    sendLatched := false, sentTriggered := false, waiterActive := false }

/-- The creation body of the spec scenario. -/
def sampleBody : JVal :=
  .obj [("text", .str "ann-i"),
        ("viewport", .obj [("width", .num 800), ("height", .num 600)])]

/-- A request context with a fresh id and no screenshot callback. -/
def sampleCtx : ReqCtx :=
  { now := "T1", newId := "new-id", hasScreenshotCb := false, screenshotResult := none }

/-- A text of length 10 KiB + 1. -/
def sampleLongText : String := String.mk (List.replicate 10241 'a')

/-- A fixed rendering function standing in for the platform ISO-date
formatter in concrete runs. -/
def sampleIso : Rat → String := fun _ => "iso"

/-- A two-event trace: one request followed by its response. -/
def sampleNetTrace : List NetworkEvent :=
  [.requestWillBeSent "r1" "http://x" "GET" 1 2, .responseReceived "r1" 200 3]

/-- The entry the pipeline produces from sampleNetTrace. -/
def sampleNetEntry : NetworkEntry :=
  { id := "r1", url := "http://x", method := "GET", status := some 200,
    timing_ms := some (timingMs 3 2), error := none, timestamp := sampleIso (1 * 1000) }

/-- The pipeline state of a fresh client with buffer capacity 200. -/
def emptyNetState : NetState :=
  { pendingRequests := [], networkRequests := CircularBuffer.empty NetworkEntry 200 }

end RelayInspect

namespace RelayInspect

/-! ## Lemmas about the circular buffer -/

theorem CircularBuffer.push_maxSize (b : CircularBuffer α) (x : α) :
    (b.push x).maxSize = b.maxSize := by
  unfold CircularBuffer.push
  split <;> rfl

theorem CircularBuffer.push_buffer_cases (b : CircularBuffer α) (x : α) :
    (b.push x).buffer = (b.buffer ++ [x]).drop 1 ∨ (b.push x).buffer = b.buffer ++ [x] := by
  unfold CircularBuffer.push
  split
  · exact Or.inl rfl
  · exact Or.inr rfl

theorem CircularBuffer.pushMany_maxSize (b : CircularBuffer α) (xs : List α) :
    (b.pushMany xs).maxSize = b.maxSize := by
  induction xs generalizing b with
  | nil => rfl
  | cons x xs ih =>
    show ((b.push x).pushMany xs).maxSize = b.maxSize
    rw [ih, CircularBuffer.push_maxSize]

theorem CircularBuffer.push_buffer_eq (b : CircularBuffer α) (x : α)
    (hb : b.buffer.length ≤ b.maxSize) :
    (b.push x).buffer = (b.buffer ++ [x]).drop (b.buffer.length + 1 - b.maxSize) := by
  unfold CircularBuffer.push
  simp only [List.length_append, List.length_singleton]
  split
  · next h =>
    have h1 : b.buffer.length + 1 - b.maxSize = 1 := by omega
    rw [h1]
  · next h =>
    have h0 : b.buffer.length + 1 - b.maxSize = 0 := by omega
    rw [h0, List.drop_zero]

theorem CircularBuffer.push_length_le (b : CircularBuffer α) (x : α)
    (hb : b.buffer.length ≤ b.maxSize) :
    (b.push x).buffer.length ≤ (b.push x).maxSize := by
  rw [CircularBuffer.push_buffer_eq b x hb, CircularBuffer.push_maxSize]
  simp only [List.length_drop, List.length_append, List.length_singleton]
  omega

theorem CircularBuffer.pushMany_buffer (xs : List α) (b : CircularBuffer α)
    (hb : b.buffer.length ≤ b.maxSize) :
    (b.pushMany xs).buffer =
      (b.buffer ++ xs).drop (b.buffer.length + xs.length - b.maxSize) := by
  induction xs generalizing b with
  | nil =>
    have h0 : b.buffer.length - b.maxSize = 0 := by omega
    simp [CircularBuffer.pushMany, h0]
  | cons x xs ih =>
    show ((b.push x).pushMany xs).buffer = _
    rw [ih (b.push x) (CircularBuffer.push_length_le b x hb)]
    rw [CircularBuffer.push_maxSize]
    rw [CircularBuffer.push_buffer_eq b x hb]
    have hk : b.buffer.length + 1 - b.maxSize ≤ (b.buffer ++ [x]).length := by
      simp only [List.length_append, List.length_singleton]; omega
    rw [← List.drop_append_of_le_length hk, List.drop_drop]
    have h1 : (List.drop (b.buffer.length + 1 - b.maxSize) (b.buffer ++ [x])).length
        = b.buffer.length + 1 - (b.buffer.length + 1 - b.maxSize) := by
      simp [List.length_drop]
    rw [h1]
    have h2 : b.buffer.length + 1 - b.maxSize
        + (b.buffer.length + 1 - (b.buffer.length + 1 - b.maxSize) + xs.length - b.maxSize)
        = b.buffer.length + (x :: xs).length - b.maxSize := by
      simp only [List.length_cons]; omega
    rw [h2]
    congr 1
    simp

/-- Claim C7: for every capacity C at least 1 and every sequence of N
pushes into a fresh CircularBuffer of capacity C, the length afterwards is
min(N, C) and the contents are the last min(N, C) pushed elements in push
order. -/
theorem c7_ring_buffer_eviction {α : Type} (C : Nat) (hC : 1 ≤ C) (xs : List α) :
    ((CircularBuffer.empty α C).pushMany xs).buffer
        = xs.drop (xs.length - min xs.length C)
      ∧ ((CircularBuffer.empty α C).pushMany xs).length = min xs.length C := by
  have hb : (CircularBuffer.empty α C).buffer.length ≤ (CircularBuffer.empty α C).maxSize := by
    simp [CircularBuffer.empty]
  have h := CircularBuffer.pushMany_buffer xs (CircularBuffer.empty α C) hb
  simp only [CircularBuffer.empty, List.nil_append, List.length_nil, Nat.zero_add] at h
  constructor
  · show ((CircularBuffer.empty α C).pushMany xs).buffer = _
    simp only [CircularBuffer.empty] at h ⊢
    rw [h]
    congr 1
    omega
  · show ((CircularBuffer.empty α C).pushMany xs).buffer.length = min xs.length C
    simp only [CircularBuffer.empty] at h ⊢
    rw [h, List.length_drop]
    omega

/-- Witness for C7 at capacity 3 and pushes [1, 2, 3, 4]. -/
theorem c7_ring_buffer_eviction_witness :
    1 ≤ 3
      ∧ (((CircularBuffer.empty Nat 3).pushMany [1, 2, 3, 4]).buffer
            = [1, 2, 3, 4].drop ([1, 2, 3, 4].length - min [1, 2, 3, 4].length 3)
          ∧ ((CircularBuffer.empty Nat 3).pushMany [1, 2, 3, 4]).length
            = min [1, 2, 3, 4].length 3) :=
  ⟨by decide, c7_ring_buffer_eviction 3 (by decide) [1, 2, 3, 4]⟩

theorem drainWhere_foldl (p : α → Bool) (l m r : List α) :
    (l.foldl
        (fun (acc : List α × List α) item =>
          if p item then (acc.1 ++ [item], acc.2) else (acc.1, acc.2 ++ [item]))
        (m, r))
      = (m ++ l.filter p, r ++ l.filter (fun x => !(p x))) := by
  induction l generalizing m r with
  | nil => simp
  | cons x xs ih =>
    by_cases h : p x
    · simp only [List.foldl_cons, if_pos h]
      rw [ih]
      simp [List.filter_cons, h, List.append_assoc]
    · simp only [List.foldl_cons, if_neg h]
      rw [ih]
      simp [List.filter_cons, h, List.append_assoc]

/-- Claim C8: drainWhere returns exactly the elements satisfying the
predicate in their original relative order, and afterwards the buffer
holds exactly the elements not satisfying it, also in order. -/
theorem c8_drainWhere_partition {α : Type} (b : CircularBuffer α) (p : α → Bool) :
    (b.drainWhere p).1 = b.buffer.filter p
      ∧ (b.drainWhere p).2.buffer = b.buffer.filter (fun x => !(p x)) := by
  unfold CircularBuffer.drainWhere
  rw [drainWhere_foldl]
  exact ⟨by simp, by simp⟩

/-! ## Target selection (claim C6) -/

theorem head?_filter_eq_find? (p : α → Bool) (l : List α) :
    (l.filter p).head? = l.find? p := by
  induction l with
  | nil => rfl
  | cons x xs ih => by_cases h : p x <;> simp [List.filter_cons, List.find?_cons, h, ih]

theorem prefix_excl {l p q : List Char} (h : p.isPrefixOf l = true)
    (hpq : p.isPrefixOf q = false) (hqp : q.isPrefixOf p = false) :
    q.isPrefixOf l = false := by
  cases hq : q.isPrefixOf l with
  | false => rfl
  | true =>
    exfalso
    have h1 := List.isPrefixOf_iff_prefix.mp h
    have h2 := List.isPrefixOf_iff_prefix.mp hq
    rcases List.prefix_or_prefix_of_prefix h1 h2 with h3 | h3
    · exact (Bool.eq_false_iff.mp hpq) (List.isPrefixOf_iff_prefix.mpr h3)
    · exact (Bool.eq_false_iff.mp hqp) (List.isPrefixOf_iff_prefix.mpr h3)

/-- An HTTP(S) URL never carries one of the internal scheme markers. -/
theorem not_internal_of_http (u : String) (h : isHttpUrl u = true) :
    isInternalTargetUrl u = false := by
  unfold isHttpUrl strStartsWith at h
  rw [Bool.or_eq_true] at h
  unfold isInternalTargetUrl internalTargetPrefixList strStartsWith
  rcases h with h | h
  · have d1 := prefix_excl h (q := "devtools://".data) (by decide) (by decide)
    have d2 := prefix_excl h (q := "chrome://".data) (by decide) (by decide)
    have d3 := prefix_excl h (q := "chrome-extension://".data) (by decide) (by decide)
    have d4 := prefix_excl h (q := "about:".data) (by decide) (by decide)
    simp [d1, d2, d3, d4]
  · have d1 := prefix_excl h (q := "devtools://".data) (by decide) (by decide)
    have d2 := prefix_excl h (q := "chrome://".data) (by decide) (by decide)
    have d3 := prefix_excl h (q := "chrome-extension://".data) (by decide) (by decide)
    have d4 := prefix_excl h (q := "about:".data) (by decide) (by decide)
    simp [d1, d2, d3, d4]

/-- Claim C6: chooseDefaultTarget returns the first HTTP(S) target whose
hostname is loopback if one exists; otherwise the first HTTP(S) target;
otherwise the first target whose URL has no internal scheme marker;
otherwise the first target of the list. -/
theorem c6_chooseDefaultTarget (parse : String → Option UrlParts) (ts : List PageTarget) :
    chooseDefaultTarget parse ts =
      (((ts.find? (fun t => isHttpUrl t.url && isLocalhostHttpUrl parse t.url)).orElse
        (fun _ => ts.find? (fun t => isHttpUrl t.url))).orElse
        (fun _ => ts.find? (fun t => !isInternalTargetUrl t.url))).orElse
        (fun _ => ts.head?) := by
  have hpt1 : ∀ t : PageTarget,
      ((isLocalhostHttpUrl parse t.url && isHttpUrl t.url) && !isInternalTargetUrl t.url)
        = (isHttpUrl t.url && isLocalhostHttpUrl parse t.url) := by
    intro t
    cases hh : isHttpUrl t.url
    · simp
    · simp [not_internal_of_http t.url hh, Bool.and_comm]
  have hpt2 : ∀ t : PageTarget,
      (isHttpUrl t.url && !isInternalTargetUrl t.url) = isHttpUrl t.url := by
    intro t
    cases hh : isHttpUrl t.url
    · simp
    · simp [not_internal_of_http t.url hh]
  have k1 : ((((ts.filter (fun t => !isInternalTargetUrl t.url)).filter
        (fun t => isHttpUrl t.url)).filter
        (fun t => isLocalhostHttpUrl parse t.url)).head?)
      = ts.find? (fun t => isHttpUrl t.url && isLocalhostHttpUrl parse t.url) := by
    rw [List.filter_filter, List.filter_filter, head?_filter_eq_find?]
    exact congrArg (fun q => List.find? q ts) (funext hpt1)
  have k2 : (((ts.filter (fun t => !isInternalTargetUrl t.url)).filter
        (fun t => isHttpUrl t.url)).head?)
      = ts.find? (fun t => isHttpUrl t.url) := by
    rw [List.filter_filter, head?_filter_eq_find?]
    exact congrArg (fun q => List.find? q ts) (funext hpt2)
  have k3 : ((ts.filter (fun t => !isInternalTargetUrl t.url)).head?)
      = ts.find? (fun t => !isInternalTargetUrl t.url) := head?_filter_eq_find? _ _
  cases ts with
  | nil => rfl
  | cons first rest =>
    unfold chooseDefaultTarget
    dsimp only
    rw [k1, k2, k3]
    rfl

/-! ## CORS origin validation (claim C5) -/

/-- Claim C5: isAllowedOrigin returns the input verbatim exactly when it
parses as an absolute URL with scheme http or https and hostname
localhost, 127.0.0.1, or [::1]; it returns null for a missing input, and
in every case the result is either the input verbatim or null (covering
the other-scheme, other-hostname, empty and unparseable cases). The sole
assumption on the platform parser is that the empty string is not a URL. -/
theorem c5_isAllowedOrigin (parse : String → Option UrlParts)
    (hparse : parse "" = none) (s : String) :
    (isAllowedOrigin parse (some s) = some s ↔
        ∃ u, parse s = some u
          ∧ (u.protocol = "http:" ∨ u.protocol = "https:")
          ∧ (u.hostname = "localhost" ∨ u.hostname = "127.0.0.1" ∨ u.hostname = "[::1]"))
      ∧ (isAllowedOrigin parse (some s) = some s ∨ isAllowedOrigin parse (some s) = none)
      ∧ isAllowedOrigin parse none = none := by
  refine ⟨?_, ?_, rfl⟩
  · unfold isAllowedOrigin
    dsimp only
    by_cases hs : s = ""
    · subst hs
      simp [hparse]
    · rw [if_neg hs]
      cases hp : parse s with
      | none =>
        simp [hp]
      | some u =>
        dsimp only
        by_cases hok : (u.protocol = "http:" ∨ u.protocol = "https:") ∧
            (u.hostname = "localhost" ∨ u.hostname = "127.0.0.1" ∨ u.hostname = "[::1]")
        · rw [if_pos hok]
          constructor
          · intro
            exact ⟨u, rfl, hok.1, hok.2⟩
          · intro
            rfl
        · rw [if_neg hok]
          constructor
          · intro hcontra
            exact absurd hcontra (by simp)
          · rintro ⟨u2, hu2, hp2, hh2⟩
            cases hu2
            exact absurd ⟨hp2, hh2⟩ hok
  · unfold isAllowedOrigin
    dsimp only
    by_cases hs : s = ""
    · subst hs; simp
    · rw [if_neg hs]
      cases hp : parse s with
      | none => exact Or.inr rfl
      | some u =>
        dsimp only
        by_cases hok : (u.protocol = "http:" ∨ u.protocol = "https:") ∧
            (u.hostname = "localhost" ∨ u.hostname = "127.0.0.1" ∨ u.hostname = "[::1]")
        · exact Or.inl (by rw [if_pos hok])
        · exact Or.inr (by rw [if_neg hok])

/-- Witness for C5 with a concrete parser and the origin
http://localhost. -/
theorem c5_isAllowedOrigin_witness :
    ((fun t => if t = "http://localhost"
        then some ({ protocol := "http:", hostname := "localhost" } : UrlParts)
        else none) "" = none)
      ∧ ((isAllowedOrigin (fun t => if t = "http://localhost"
            then some ({ protocol := "http:", hostname := "localhost" } : UrlParts)
            else none) (some "http://localhost") = some "http://localhost" ↔
          ∃ u, (fun t => if t = "http://localhost"
              then some ({ protocol := "http:", hostname := "localhost" } : UrlParts)
              else none) "http://localhost" = some u
            ∧ (u.protocol = "http:" ∨ u.protocol = "https:")
            ∧ (u.hostname = "localhost" ∨ u.hostname = "127.0.0.1" ∨ u.hostname = "[::1]"))
        ∧ (isAllowedOrigin (fun t => if t = "http://localhost"
              then some ({ protocol := "http:", hostname := "localhost" } : UrlParts)
              else none) (some "http://localhost") = some "http://localhost"
            ∨ isAllowedOrigin (fun t => if t = "http://localhost"
              then some ({ protocol := "http:", hostname := "localhost" } : UrlParts)
              else none) (some "http://localhost") = none)
        ∧ isAllowedOrigin (fun t => if t = "http://localhost"
            then some ({ protocol := "http:", hostname := "localhost" } : UrlParts)
            else none) none = none) :=
  ⟨by decide,
   c5_isAllowedOrigin
     (fun t => if t = "http://localhost"
        then some ({ protocol := "http:", hostname := "localhost" } : UrlParts)
        else none)
     (by decide) "http://localhost"⟩

/-! ## The annotation server: state-shape lemmas -/

theorem handleSend_fst (st : ServerState) (hw : st.waiterActive = false) :
    (handleSend st).1 = { st with sendLatched := true, sentTriggered := true } := by
  unfold handleSend
  rw [if_neg (by simp [hw])]

theorem handleSend_snd (st : ServerState) :
    (handleSend st).2 = ⟨200, .sendOk⟩ := rfl

theorem handleCreate_fst (st : ServerState) (body : JVal) (ctx : ReqCtx) :
    ∃ m, (handleCreate st body ctx).1 = { st with annotations := m } := by
  unfold handleCreate
  dsimp only
  repeat' split
  all_goals exact ⟨_, rfl⟩

theorem handlePatch_fst (st : ServerState) (id : String) (body : JVal) (ctx : ReqCtx) :
    ∃ m, (handlePatch st id body ctx).1 = { st with annotations := m } := by
  unfold handlePatch
  dsimp only
  repeat' split
  all_goals exact ⟨_, rfl⟩

theorem resolveAnn_fst (st : ServerState) (id now : String) :
    ∃ m, (resolveAnn st id now).1 = { st with annotations := m } := by
  unfold resolveAnn
  dsimp only
  repeat' split
  all_goals exact ⟨_, rfl⟩

theorem deleteAnn_fst (st : ServerState) (id : String) :
    (deleteAnn st id).1 = { st with annotations := mapDelete st.annotations id } := rfl

/-- Every route other than POST /annotations/send leaves the sent-seen
flag unchanged. -/
theorem handleRequest_sent_of_not_send (st : ServerState) (m p : String) (body : JVal)
    (ctx : ReqCtx) (port : Option Nat) (hnot : ¬(m = "POST" ∧ p = "/annotations/send")) :
    ((handleRequest st m p body ctx port).1).sentTriggered = st.sentTriggered := by
  have hres : ∀ id, ((resolveAnn st id ctx.now).1).sentTriggered = st.sentTriggered := by
    intro id
    obtain ⟨mm, hm⟩ := resolveAnn_fst st id ctx.now
    rw [hm]
  have hcrt : ((handleCreate st body ctx).1).sentTriggered = st.sentTriggered := by
    obtain ⟨mm, hm⟩ := handleCreate_fst st body ctx
    rw [hm]
  have hpat : ∀ id, ((handlePatch st id body ctx).1).sentTriggered = st.sentTriggered := by
    intro id
    obtain ⟨mm, hm⟩ := handlePatch_fst st id body ctx
    rw [hm]
  unfold handleRequest
  repeat' split
  all_goals first
    | rfl
    | exact absurd (by assumption) hnot
    | exact hcrt
    | exact hres _
    | exact hpat _

/-- Claim C1: POST /annotations/send with no active waiter sets the
latch; a subsequent waitForSend with any positive timeout resolves
immediately with triggered = true and clears the latch; consumeSentState
returns true on its first call after that send and false on every later
call until another send (no other route touches the sent-seen flag). -/
theorem c1_send_rendezvous_latched (st : ServerState) (body : JVal) (ctx : ReqCtx)
    (port : Option Nat) (t : Nat) (hw : st.waiterActive = false) (ht : 0 < t) :
    ((handleRequest st "POST" "/annotations/send" body ctx port).2.status = 200
      ∧ (handleRequest st "POST" "/annotations/send" body ctx port).1.sendLatched = true)
    ∧ ((waitForSend (handleRequest st "POST" "/annotations/send" body ctx port).1 t).1
          = some true
      ∧ (waitForSend (handleRequest st "POST" "/annotations/send" body ctx port).1 t).2.sendLatched
          = false)
    ∧ (consumeSentState
          (waitForSend (handleRequest st "POST" "/annotations/send" body ctx port).1 t).2).1
        = true
    ∧ (consumeSentState (consumeSentState
          (waitForSend (handleRequest st "POST" "/annotations/send" body ctx port).1 t).2).2).1
        = false
    ∧ (∀ st2 : ServerState, st2.sentTriggered = false → consumeSentState st2 = (false, st2))
    ∧ (∀ (st2 : ServerState) (m p : String) (b : JVal) (c : ReqCtx) (po : Option Nat),
        ¬(m = "POST" ∧ p = "/annotations/send") →
        ((handleRequest st2 m p b c po).1).sentTriggered = st2.sentTriggered) := by
  have hdisp : handleRequest st "POST" "/annotations/send" body ctx port = handleSend st := rfl
  have hfst := handleSend_fst st hw
  have hconsume : ∀ st2 : ServerState, st2.sentTriggered = false →
      consumeSentState st2 = (false, st2) := by
    intro st2 h2
    unfold consumeSentState
    rw [if_neg (by simp [h2])]
  refine ⟨⟨?_, ?_⟩, ⟨?_, ?_⟩, ?_, ?_, hconsume, ?_⟩
  · rw [hdisp, handleSend_snd]
  · rw [hdisp, hfst]
  · rw [hdisp, hfst]
    simp [waitForSend]
  · rw [hdisp, hfst]
    simp [waitForSend]
  · rw [hdisp, hfst]
    simp [waitForSend, consumeSentState]
  · rw [hdisp, hfst]
    simp [waitForSend, consumeSentState]
  · intro st2 m p b c po hnot
    exact handleRequest_sent_of_not_send st2 m p b c po hnot

/-- Witness for C1 from the initial server state with timeout 5000. -/
theorem c1_send_rendezvous_latched_witness :
    ServerState.initial.waiterActive = false ∧ 0 < 5000
      ∧ (((handleRequest ServerState.initial "POST" "/annotations/send" .null
            ⟨"T", "id", false, none⟩ none).2.status = 200
        ∧ (handleRequest ServerState.initial "POST" "/annotations/send" .null
            ⟨"T", "id", false, none⟩ none).1.sendLatched = true)
      ∧ ((waitForSend (handleRequest ServerState.initial "POST" "/annotations/send" .null
            ⟨"T", "id", false, none⟩ none).1 5000).1 = some true
        ∧ (waitForSend (handleRequest ServerState.initial "POST" "/annotations/send" .null
            ⟨"T", "id", false, none⟩ none).1 5000).2.sendLatched = false)
      ∧ (consumeSentState (waitForSend (handleRequest ServerState.initial "POST"
            "/annotations/send" .null ⟨"T", "id", false, none⟩ none).1 5000).2).1 = true
      ∧ (consumeSentState (consumeSentState (waitForSend (handleRequest ServerState.initial
            "POST" "/annotations/send" .null ⟨"T", "id", false, none⟩ none).1 5000).2).2).1
          = false
      ∧ (∀ st2 : ServerState, st2.sentTriggered = false → consumeSentState st2 = (false, st2))
      ∧ (∀ (st2 : ServerState) (m p : String) (b : JVal) (c : ReqCtx) (po : Option Nat),
          ¬(m = "POST" ∧ p = "/annotations/send") →
          ((handleRequest st2 m p b c po).1).sentTriggered = st2.sentTriggered)) :=
  ⟨rfl, by decide,
   c1_send_rendezvous_latched ServerState.initial .null ⟨"T", "id", false, none⟩ none 5000
     rfl (by decide)⟩

/-! ## Lemmas about the insertion-ordered map -/

theorem mapSet_length_le (m : List (String × α)) (k : String) (v : α) :
    (mapSet m k v).length ≤ m.length + 1 := by
  unfold mapSet
  split
  · simp
  · simp

theorem mapGet_any (m : List (String × α)) (k : String) (a : α)
    (h : mapGet m k = some a) : m.any (fun p => p.1 == k) = true := by
  unfold mapGet at h
  cases hf : m.find? (fun p => p.1 == k) with
  | none => rw [hf] at h; cases h
  | some p =>
    have hmem := List.mem_of_find?_eq_some hf
    have hpk := List.find?_some hf
    rw [List.any_eq_true]
    exact ⟨p, hmem, hpk⟩

theorem mapSet_length_of_get (m : List (String × α)) (k : String) (v a : α)
    (h : mapGet m k = some a) : (mapSet m k v).length = m.length := by
  unfold mapSet
  rw [if_pos (mapGet_any m k a h), List.length_map]

theorem mapDelete_length_le (m : List (String × α)) (k : String) :
    (mapDelete m k).length ≤ m.length :=
  List.length_filter_le _ _

theorem mapDelete_length_lt_of_get (m : List (String × α)) (k : String) (a : α)
    (h : mapGet m k = some a) : (mapDelete m k).length < m.length := by
  unfold mapGet at h
  cases hf : m.find? (fun p => p.1 == k) with
  | none => rw [hf] at h; cases h
  | some p =>
    have hmem := List.mem_of_find?_eq_some hf
    have hp := List.find?_some hf
    unfold mapDelete
    refine List.length_filter_lt_length_iff_exists.mpr ⟨p, hmem, ?_⟩
    simp only [bne_iff_ne, ne_eq, Decidable.not_not]
    exact eq_of_beq hp

theorem mapGet_mapSet_self (m : List (String × α)) (k : String) (v : α) :
    mapGet (mapSet m k v) k = some v := by
  unfold mapSet
  by_cases hany : m.any (fun p => p.1 == k) = true
  · rw [if_pos hany]
    induction m with
    | nil => cases hany
    | cons p ps ih =>
      by_cases hp : p.1 == k
      · unfold mapGet
        rw [List.map_cons, if_pos hp, List.find?_cons_of_pos _ (by simp)]
        rfl
      · have hany2 : ps.any (fun q => q.1 == k) = true := by
          rcases List.any_eq_true.mp hany with ⟨q, hq, hqk⟩
          cases List.mem_cons.mp hq with
          | inl h1 => exact absurd (h1 ▸ hqk) (by simpa using hp)
          | inr h1 => exact List.any_eq_true.mpr ⟨q, h1, hqk⟩
        have hih := ih hany2
        unfold mapGet at hih ⊢
        rw [List.map_cons, if_neg hp, List.find?_cons_of_neg _ (by simpa using hp)]
        exact hih
  · rw [if_neg hany]
    have hnone : m.find? (fun p => p.1 == k) = none := by
      rw [List.find?_eq_none]
      intro p hp hpk
      exact hany (List.any_eq_true.mpr ⟨p, hp, hpk⟩)
    unfold mapGet
    rw [List.find?_append, hnone]
    simp

/-! ## Annotation-count lemmas -/

theorem handleSend_annotations (st : ServerState) :
    ((handleSend st).1).annotations = st.annotations := by
  unfold handleSend
  split <;> rfl

theorem resolveAnn_length (st : ServerState) (id now : String) :
    ((resolveAnn st id now).1).annotations.length = st.annotations.length := by
  unfold resolveAnn
  split
  · rfl
  · next ann heq => exact mapSet_length_of_get st.annotations id _ ann heq

theorem handlePatch_length (st : ServerState) (id : String) (body : JVal) (ctx : ReqCtx) :
    ((handlePatch st id body ctx).1).annotations.length = st.annotations.length := by
  unfold handlePatch
  split
  · rfl
  · next ann heq =>
    split
    · split
      · rfl
      · exact mapSet_length_of_get st.annotations id _ ann heq
    · exact mapSet_length_of_get st.annotations id _ ann heq

theorem handleCreate_length (st : ServerState) (body : JVal) (ctx : ReqCtx)
    (h : st.annotations.length ≤ MAX_ANNOTATIONS) :
    ((handleCreate st body ctx).1).annotations.length ≤ MAX_ANNOTATIONS := by
  unfold handleCreate
  dsimp only
  split
  · exact h
  · next hcap =>
    have hlt : st.annotations.length + 1 ≤ MAX_ANNOTATIONS := by omega
    repeat' split
    all_goals first
      | exact h
      | exact Nat.le_trans (mapSet_length_le st.annotations ctx.newId _) hlt

/-- The annotation count never exceeds the cap across any request. -/
theorem handleRequest_length_le (st : ServerState) (m p : String) (body : JVal)
    (ctx : ReqCtx) (port : Option Nat) (h : st.annotations.length ≤ MAX_ANNOTATIONS) :
    ((handleRequest st m p body ctx port).1).annotations.length ≤ MAX_ANNOTATIONS := by
  have hsend : ((handleSend st).1).annotations.length ≤ MAX_ANNOTATIONS := by
    rw [handleSend_annotations]; exact h
  have hcrt := handleCreate_length st body ctx h
  have hres : ∀ id, ((resolveAnn st id ctx.now).1).annotations.length ≤ MAX_ANNOTATIONS := by
    intro id; rw [resolveAnn_length]; exact h
  have hpat : ∀ id, ((handlePatch st id body ctx).1).annotations.length ≤ MAX_ANNOTATIONS := by
    intro id; rw [handlePatch_length]; exact h
  have hdel : ∀ id, ((deleteAnn st id).1).annotations.length ≤ MAX_ANNOTATIONS := by
    intro id
    rw [deleteAnn_fst]
    exact Nat.le_trans (mapDelete_length_le st.annotations id) h
  unfold handleRequest
  repeat' split
  all_goals first
    | exact h
    | exact hsend
    | exact hcrt
    | exact hres _
    | exact hpat _
    | exact hdel _

/-- A creation below the cap with a body passing every guard responds 201
and inserts one annotation under the fresh id. -/
theorem handleCreate_valid (st : ServerState) (body : JVal) (ctx : ReqCtx)
    (hcap : st.annotations.length < MAX_ANNOTATIONS)
    (hv : validCreateBody body = true) :
    (handleCreate st body ctx).2 = ⟨201, .created ctx.newId⟩
      ∧ ∃ final, (handleCreate st body ctx).1
          = { st with annotations := mapSet st.annotations ctx.newId final } := by
  unfold validCreateBody at hv
  rw [Bool.and_eq_true, Bool.and_eq_true] at hv
  obtain ⟨⟨hv1, hv2⟩, hv3⟩ := hv
  rw [decide_eq_true_eq] at hv1
  rw [Bool.not_eq_true'] at hv2
  unfold handleCreate
  dsimp only
  rw [if_neg (Nat.not_le.mpr hcap), if_neg (Nat.not_lt.mpr hv1), hv2]
  rw [if_neg (by simp)]
  rcases hvp : viewportNums body with ⟨w, h⟩
  rw [hvp] at hv3
  cases w with
  | none => simp at hv3
  | some vw =>
    cases h with
    | none => simp at hv3
    | some vh =>
      simp only [Bool.not_eq_true', Bool.or_eq_false_iff, decide_eq_false_iff_not] at hv3
      obtain ⟨⟨⟨h1, h2⟩, h3⟩, h4⟩ := hv3
      dsimp only
      rw [if_neg (by rintro (hx | hx | hx | hx) <;> omega)]
      exact ⟨rfl, ⟨_, rfl⟩⟩

/-- Claim C2: the annotation count never exceeds 50; a POST that would
create a 51st annotation answers 429 and leaves the whole state
unchanged; after an annotation is deleted, the next valid creation
answers 201 and stores the new annotation. -/
theorem c2_annotation_cap (st : ServerState) (body : JVal) (ctx : ReqCtx)
    (port : Option Nat) (id : String) (a : Annot)
    (hfull : st.annotations.length = MAX_ANNOTATIONS)
    (hmem : mapGet st.annotations id = some a)
    (hvalid : validCreateBody body = true) :
    (∀ (st2 : ServerState) (m2 p2 : String) (b2 : JVal) (c2 : ReqCtx) (po2 : Option Nat),
        st2.annotations.length ≤ MAX_ANNOTATIONS →
        ((handleRequest st2 m2 p2 b2 c2 po2).1).annotations.length ≤ MAX_ANNOTATIONS)
      ∧ handleRequest st "POST" "/annotations" body ctx port
          = (st, ⟨429, .err "Maximum of 50 annotations reached. Resolve or delete existing annotations first."⟩)
      ∧ (handleRequest (deleteAnn st id).1 "POST" "/annotations" body ctx port).2
          = ⟨201, .created ctx.newId⟩
      ∧ (mapGet ((handleRequest (deleteAnn st id).1 "POST" "/annotations" body ctx port).1).annotations
            ctx.newId).isSome = true := by
  have hdisp : ∀ st2 : ServerState, handleRequest st2 "POST" "/annotations" body ctx port
      = handleCreate st2 body ctx := fun _ => rfl
  have hlt : ((deleteAnn st id).1).annotations.length < MAX_ANNOTATIONS := by
    rw [deleteAnn_fst]
    show (mapDelete st.annotations id).length < MAX_ANNOTATIONS
    have hlt2 := mapDelete_length_lt_of_get st.annotations id a hmem
    omega
  have hok := handleCreate_valid (deleteAnn st id).1 body ctx hlt hvalid
  refine ⟨handleRequest_length_le, ?_, ?_, ?_⟩
  · rw [hdisp st]
    unfold handleCreate
    rw [if_pos (by rw [hfull])]
  · rw [hdisp ((deleteAnn st id).1)]
    exact hok.1
  · rw [hdisp ((deleteAnn st id).1)]
    obtain ⟨final, hfin⟩ := hok.2
    rw [hfin]
    show (mapGet (mapSet _ ctx.newId final) ctx.newId).isSome = true
    rw [mapGet_mapSet_self]
    rfl

/-- Witness for C2 from a state holding 50 annotations under keys 0..49
and the creation body of the spec scenario. -/
theorem c2_annotation_cap_witness :
    fullState.annotations.length = MAX_ANNOTATIONS
      ∧ mapGet fullState.annotations "0" = some sampleAnnot
      ∧ validCreateBody sampleBody = true
      ∧ ((∀ (st2 : ServerState) (m2 p2 : String) (b2 : JVal) (c2 : ReqCtx) (po2 : Option Nat),
            st2.annotations.length ≤ MAX_ANNOTATIONS →
            ((handleRequest st2 m2 p2 b2 c2 po2).1).annotations.length ≤ MAX_ANNOTATIONS)
        ∧ handleRequest fullState "POST" "/annotations" sampleBody sampleCtx none
            = (fullState, ⟨429, .err "Maximum of 50 annotations reached. Resolve or delete existing annotations first."⟩)
        ∧ (handleRequest (deleteAnn fullState "0").1 "POST" "/annotations" sampleBody
              sampleCtx none).2 = ⟨201, .created sampleCtx.newId⟩
        ∧ (mapGet ((handleRequest (deleteAnn fullState "0").1 "POST" "/annotations" sampleBody
              sampleCtx none).1).annotations sampleCtx.newId).isSome = true) :=
  ⟨rfl, rfl, rfl,
   c2_annotation_cap fullState sampleBody sampleCtx none "0" sampleAnnot rfl rfl rfl⟩

/-- Claim C4: a POST /annotations whose text field is a string longer
than 10240 characters answers 400 with an error message containing
"Text exceeds" and leaves the state unchanged; a PATCH on an existing
annotation with such a text is symmetric. -/
theorem c4_text_length_guard (st : ServerState) (body : JVal) (ctx : ReqCtx)
    (port : Option Nat) (path id : String) (a : Annot) (s : String)
    (hcap : st.annotations.length < MAX_ANNOTATIONS)
    (hroute : matchIdRoute path = some (id, false))
    (hget : mapGet st.annotations id = some a)
    (hstr : jget body "text" = some (.str s))
    (hlen : MAX_TEXT_LENGTH < s.length) :
    handleRequest st "POST" "/annotations" body ctx port
        = (st, ⟨400, .err "Text exceeds maximum length of 10240 characters"⟩)
      ∧ handleRequest st "PATCH" path body ctx port
        = (st, ⟨400, .err "Text exceeds maximum length of 10240 characters"⟩)
      ∧ containsSub "Text exceeds maximum length of 10240 characters" "Text exceeds" := by
  refine ⟨?_, ?_, "", " maximum length of 10240 characters", by decide⟩
  · have hd : handleRequest st "POST" "/annotations" body ctx port
        = handleCreate st body ctx := rfl
    rw [hd]
    unfold handleCreate
    dsimp only
    rw [if_neg (Nat.not_le.mpr hcap), hstr]
    have htext : jsStringOrEmpty (some (.str s)) = s := rfl
    rw [htext, if_pos hlen]
  · have hd : handleRequest st "PATCH" path body ctx port
        = handlePatch st id body ctx := by
      simp [handleRequest, hroute]
    rw [hd]
    unfold handlePatch
    rw [hget]
    dsimp only
    rw [hstr]
    dsimp only
    rw [if_pos hlen]

theorem sampleLongText_length : sampleLongText.length = 10241 := by
  unfold sampleLongText
  show (List.replicate 10241 'a').length = 10241
  rw [List.length_replicate]

/-- Witness for C4 on a one-annotation state and a 10241-character text. -/
theorem c4_text_length_guard_witness :
    oneAnnotState.annotations.length < MAX_ANNOTATIONS
      ∧ matchIdRoute "/annotations/id-1" = some ("id-1", false)
      ∧ mapGet oneAnnotState.annotations "id-1" = some sampleAnnot
      ∧ jget (.obj [("text", .str sampleLongText)]) "text" = some (.str sampleLongText)
      ∧ MAX_TEXT_LENGTH < sampleLongText.length
      ∧ (handleRequest oneAnnotState "POST" "/annotations" (.obj [("text", .str sampleLongText)])
            sampleCtx none
          = (oneAnnotState, ⟨400, .err "Text exceeds maximum length of 10240 characters"⟩)
        ∧ handleRequest oneAnnotState "PATCH" "/annotations/id-1"
            (.obj [("text", .str sampleLongText)]) sampleCtx none
          = (oneAnnotState, ⟨400, .err "Text exceeds maximum length of 10240 characters"⟩)
        ∧ containsSub "Text exceeds maximum length of 10240 characters" "Text exceeds") :=
  ⟨by decide, rfl, rfl, rfl, by rw [sampleLongText_length]; decide,
   c4_text_length_guard oneAnnotState (.obj [("text", .str sampleLongText)]) sampleCtx none
     "/annotations/id-1" "id-1" sampleAnnot sampleLongText (by decide) rfl rfl rfl
     (by rw [sampleLongText_length]; decide)⟩

/-- Claim C10: a PATCH on an existing annotation whose body has no string
text field answers 200 and leaves every stored field unchanged except
updatedAt, which becomes the current time. -/
theorem c10_patch_without_text (st : ServerState) (body : JVal) (ctx : ReqCtx)
    (port : Option Nat) (path id : String) (a : Annot)
    (hroute : matchIdRoute path = some (id, false))
    (hget : mapGet st.annotations id = some a)
    (htext : isStrField (jget body "text") = false) :
    handleRequest st "PATCH" path body ctx port
      = ({ st with annotations := mapSet st.annotations id { a with updatedAt := ctx.now } },
         ⟨200, .annot { a with updatedAt := ctx.now }⟩) := by
  have hd : handleRequest st "PATCH" path body ctx port = handlePatch st id body ctx := by
    simp [handleRequest, hroute]
  rw [hd]
  unfold handlePatch
  rw [hget]
  dsimp only
  cases ht : jget body "text" with
  | none => rfl
  | some v =>
    cases v with
    | str s2 =>
      rw [ht] at htext
      simp [isStrField] at htext
    | null => rfl
    | bool b => rfl
    | num n => rfl
    | arr l => rfl
    | obj f => rfl

/-- Witness for C10 on a one-annotation state and a body without a text
field. -/
theorem c10_patch_without_text_witness :
    matchIdRoute "/annotations/id-1" = some ("id-1", false)
      ∧ mapGet oneAnnotState.annotations "id-1" = some sampleAnnot
      ∧ isStrField (jget (.obj [("other", .num 1)]) "text") = false
      ∧ handleRequest oneAnnotState "PATCH" "/annotations/id-1" (.obj [("other", .num 1)])
          sampleCtx none
        = ({ oneAnnotState with annotations := mapSet oneAnnotState.annotations "id-1" { sampleAnnot with updatedAt := sampleCtx.now } }, ⟨200, .annot { sampleAnnot with updatedAt := sampleCtx.now }⟩) :=
  ⟨rfl, rfl, rfl,
   c10_patch_without_text oneAnnotState (.obj [("other", .num 1)]) sampleCtx none
     "/annotations/id-1" "id-1" sampleAnnot rfl rfl rfl⟩

/-- Claim C3 is refuted by the code: the handler has no bulk-delete route,
so a DELETE on the bare /annotations collection path falls through to the
404 branch and the store is left unchanged, although the specification
and the test suite of the repository promise 200 with a success and
deleted count. -/
theorem c3_bulk_delete_route_missing :
    handleRequest oneAnnotState "DELETE" "/annotations" .null sampleCtx none
      = (oneAnnotState, ⟨404, .err "Not found"⟩) := rfl

/-! ## The network pipeline (claim C9) -/

theorem mem_mapSet (m : List (String × α)) (k : String) (v : α) (kp : String × α)
    (h : kp ∈ mapSet m k v) : kp ∈ m ∨ kp = (k, v) := by
  unfold mapSet at h
  split at h
  · rcases List.mem_map.mp h with ⟨p, hp, hpe⟩
    by_cases hk : p.1 == k
    · rw [if_pos hk] at hpe
      exact Or.inr hpe.symm
    · rw [if_neg hk] at hpe
      exact Or.inl (hpe ▸ hp)
  · rcases List.mem_append.mp h with h1 | h1
    · exact Or.inl h1
    · exact Or.inr (List.mem_singleton.mp h1)

theorem mapGet_some_mem (m : List (String × α)) (k : String) (v : α)
    (h : mapGet m k = some v) : (k, v) ∈ m := by
  unfold mapGet at h
  cases hf : m.find? (fun p => p.1 == k) with
  | none => rw [hf] at h; cases h
  | some p =>
    rw [hf] at h
    have hk := List.find?_some hf
    have hmem := List.mem_of_find?_eq_some hf
    have h2 : p.2 = v := by simpa using h
    have h1 : p.1 = k := by simpa using hk
    have : (k, v) = p := by
      cases p
      simp only at h1 h2
      rw [h1, h2]
    rw [this]
    exact hmem

theorem mem_push (b : CircularBuffer α) (a x : α) (h : x ∈ (b.push a).buffer) :
    x ∈ b.buffer ∨ x = a := by
  rcases CircularBuffer.push_buffer_cases b a with hc | hc <;> rw [hc] at h
  · have h2 := List.mem_of_mem_drop h
    rcases List.mem_append.mp h2 with h3 | h3
    · exact Or.inl h3
    · exact Or.inr (List.mem_singleton.mp h3)
  · rcases List.mem_append.mp h with h3 | h3
    · exact Or.inl h3
    · exact Or.inr (List.mem_singleton.mp h3)

theorem get_append_last (l : List α) (a : α) (h : l.length < (l ++ [a]).length) :
    (l ++ [a]).get ⟨l.length, h⟩ = a := by
  induction l with
  | nil => rfl
  | cons x xs ih => exact ih (by simp)

/-- The pipeline invariant: every pending request was recorded by an
earlier request-will-be-sent with its own id as the key, and every
buffered entry with a status arose from a request-will-be-sent followed
by a response-received with the same id. -/
theorem runNetwork_invariant (toIso : Rat → String) (cap : Nat)
    (events : List NetworkEvent) :
    (∀ kp ∈ (runNetwork toIso cap events).pendingRequests,
        kp.2.id = kp.1
          ∧ ∃ i, ∃ hi : i < events.length, (events.get ⟨i, hi⟩).isRequestFor kp.1)
      ∧ (∀ e ∈ (runNetwork toIso cap events).networkRequests.buffer, e.status.isSome = true →
          ∃ i j, ∃ hi : i < events.length, ∃ hj : j < events.length, i < j
            ∧ (events.get ⟨i, hi⟩).isRequestFor e.id
            ∧ (events.get ⟨j, hj⟩).isResponseFor e.id) := by
  induction events using List.reverseRecOn with
  | nil =>
    constructor
    · intro kp hkp
      cases hkp
    · intro e he
      cases he
  | append_singleton l ev ih =>
    have hrun : runNetwork toIso cap (l ++ [ev])
        = stepNetwork toIso (runNetwork toIso cap l) ev := by
      unfold runNetwork
      rw [List.foldl_append]
      rfl
    have hlen : l.length < (l ++ [ev]).length := by simp
    have hliftR : ∀ rid, (∃ i, ∃ hi : i < l.length, (l.get ⟨i, hi⟩).isRequestFor rid) →
        ∃ i, ∃ hi : i < (l ++ [ev]).length, ((l ++ [ev]).get ⟨i, hi⟩).isRequestFor rid := by
      rintro rid ⟨i, hi, hr⟩
      exact ⟨i, by simp; omega, by rw [List.get_append i hi]; exact hr⟩
    have hlift2 : ∀ e : NetworkEntry,
        (∃ i j, ∃ hi : i < l.length, ∃ hj : j < l.length, i < j
          ∧ (l.get ⟨i, hi⟩).isRequestFor e.id ∧ (l.get ⟨j, hj⟩).isResponseFor e.id) →
        ∃ i j, ∃ hi : i < (l ++ [ev]).length, ∃ hj : j < (l ++ [ev]).length, i < j
          ∧ ((l ++ [ev]).get ⟨i, hi⟩).isRequestFor e.id
          ∧ ((l ++ [ev]).get ⟨j, hj⟩).isResponseFor e.id := by
      rintro e ⟨i, j, hi, hj, hij, hr, hs⟩
      refine ⟨i, j, by simp; omega, by simp; omega, hij, ?_, ?_⟩
      · rw [List.get_append i hi]; exact hr
      · rw [List.get_append j hj]; exact hs
    rw [hrun]
    cases ev with
    | requestWillBeSent rid url method wallTime ts =>
      constructor
      · intro kp hkp
        rcases mem_mapSet _ rid _ kp hkp with hold | hnew
        · obtain ⟨hid, hex⟩ := (ih.1 kp hold)
          exact ⟨hid, hliftR kp.1 hex⟩
        · subst hnew
          refine ⟨rfl, l.length, hlen, ?_⟩
          rw [get_append_last]
          exact rfl
      · intro e he hsome
        exact hlift2 e (ih.2 e he hsome)
    | responseReceived rid status ts =>
      show _ ∧ _
      unfold stepNetwork
      dsimp only
      cases hpend : mapGet (runNetwork toIso cap l).pendingRequests rid with
      | none =>
        dsimp only
        constructor
        · intro kp hkp
          obtain ⟨hid, hex⟩ := ih.1 kp hkp
          exact ⟨hid, hliftR kp.1 hex⟩
        · intro e he hsome
          exact hlift2 e (ih.2 e he hsome)
      | some pending =>
        dsimp only
        constructor
        · intro kp hkp
          have hold : kp ∈ (runNetwork toIso cap l).pendingRequests :=
            List.mem_of_mem_filter hkp
          obtain ⟨hid, hex⟩ := ih.1 kp hold
          exact ⟨hid, hliftR kp.1 hex⟩
        · intro e he hsome
          rcases mem_push _ _ e he with hold | hnew
          · exact hlift2 e (ih.2 e hold hsome)
          · subst hnew
            have hmem := mapGet_some_mem _ rid pending hpend
            obtain ⟨hid, i, hi, hr⟩ := ih.1 (rid, pending) hmem
            refine ⟨i, l.length, by simp; omega, by simp, by omega, ?_, ?_⟩
            · rw [List.get_append i hi]
              show (l.get ⟨i, hi⟩).isRequestFor pending.id
              rw [hid]
              exact hr
            · rw [get_append_last]
              show rid = pending.id
              rw [hid]
    | loadingFailed rid errorText ts =>
      show _ ∧ _
      unfold stepNetwork
      dsimp only
      cases hpend : mapGet (runNetwork toIso cap l).pendingRequests rid with
      | none =>
        dsimp only
        constructor
        · intro kp hkp
          obtain ⟨hid, hex⟩ := ih.1 kp hkp
          exact ⟨hid, hliftR kp.1 hex⟩
        · intro e he hsome
          exact hlift2 e (ih.2 e he hsome)
      | some pending =>
        dsimp only
        constructor
        · intro kp hkp
          have hold : kp ∈ (runNetwork toIso cap l).pendingRequests :=
            List.mem_of_mem_filter hkp
          obtain ⟨hid, hex⟩ := ih.1 kp hold
          exact ⟨hid, hliftR kp.1 hex⟩
        · intro e he hsome
          rcases mem_push _ _ e he with hold | hnew
          · exact hlift2 e (ih.2 e hold hsome)
          · subst hnew
            cases hsome

/-- Claim C9: every entry of the network buffer with a non-null status
stems from a request-will-be-sent with the same id processed before the
response-received with that id; a response-received or loading-failed
whose id has no pending request leaves the whole state unchanged. -/
theorem c9_network_pipeline (toIso : Rat → String) (cap : Nat)
    (events : List NetworkEvent) :
    (∀ e ∈ (runNetwork toIso cap events).networkRequests.buffer, e.status.isSome = true →
        ∃ i j, ∃ hi : i < events.length, ∃ hj : j < events.length, i < j
          ∧ (events.get ⟨i, hi⟩).isRequestFor e.id
          ∧ (events.get ⟨j, hj⟩).isResponseFor e.id)
      ∧ (∀ (s : NetState) (rid : String) (status : Int) (ts : Rat),
          mapGet s.pendingRequests rid = none →
          stepNetwork toIso s (.responseReceived rid status ts) = s)
      ∧ (∀ (s : NetState) (rid errText : String) (ts : Rat),
          mapGet s.pendingRequests rid = none →
          stepNetwork toIso s (.loadingFailed rid errText ts) = s) := by
  refine ⟨(runNetwork_invariant toIso cap events).2, ?_, ?_⟩
  · intro s rid status ts h
    unfold stepNetwork
    dsimp only
    rw [h]
  · intro s rid errText ts h
    unfold stepNetwork
    dsimp only
    rw [h]

/-- Witness for C9 on a concrete request/response trace and the empty
state. -/
theorem c9_network_pipeline_witness :
    (sampleNetEntry ∈ (runNetwork sampleIso 200 sampleNetTrace).networkRequests.buffer)
      ∧ sampleNetEntry.status.isSome = true
      ∧ (∃ i j, ∃ hi : i < sampleNetTrace.length, ∃ hj : j < sampleNetTrace.length, i < j
          ∧ (sampleNetTrace.get ⟨i, hi⟩).isRequestFor sampleNetEntry.id
          ∧ (sampleNetTrace.get ⟨j, hj⟩).isResponseFor sampleNetEntry.id)
      ∧ mapGet emptyNetState.pendingRequests "r1" = none
      ∧ stepNetwork sampleIso emptyNetState (.responseReceived "r1" 200 3) = emptyNetState
      ∧ stepNetwork sampleIso emptyNetState (.loadingFailed "r1" "net::ERR" 3) = emptyNetState := by
  have hbuf : (runNetwork sampleIso 200 sampleNetTrace).networkRequests.buffer
      = [sampleNetEntry] := rfl
  have hmem : sampleNetEntry ∈ (runNetwork sampleIso 200 sampleNetTrace).networkRequests.buffer := by
    rw [hbuf]
    exact List.mem_singleton.mpr rfl
  refine ⟨hmem, rfl, ?_, rfl, ?_, ?_⟩
  · exact (c9_network_pipeline sampleIso 200 sampleNetTrace).1 sampleNetEntry hmem rfl
  · exact (c9_network_pipeline sampleIso 200 sampleNetTrace).2.1 emptyNetState "r1" 200 3 rfl
  · exact (c9_network_pipeline sampleIso 200 sampleNetTrace).2.2 emptyNetState "r1" "net::ERR" 3 rfl

end RelayInspect
